import Mathlib

/-!
# WildGuard-AI front end: a shallow embedding

The two React components of the repository, `LiveRecorder`
(`components/AudioRecorder.jsx`) and `FileUploader`
(`components/FileUploader.jsx`), are embedded as explicit state passing.

* React state (`useState`) and refs (`useRef`) become fields of a state record.
* What the browser decides (which MIME types are supported, whether
  `getUserMedia` resolves, what the POST answers, which chunks the recorder
  delivers) is a parameter of the handler it reaches.
* Effects outside of the component (`alert`, tracks kept open, POSTs issued)
  are recorded in list-valued fields of the state record.
* An `async` handler is cut at its `await`: the part before it and the
  continuation after it are separate transitions.
-/

namespace WildGuard

/-! ## JavaScript string operations used by the components -/

/-- The test `s.startsWith(t)`. -/
def startsWith (s t : String) : Bool :=
  t.data.isPrefixOf s.data

/-- The test `s.includes(t)` on character lists: `t` begins at some position of the text. -/
def includesChars (t : List Char) : List Char → Bool
  | [] => t.isPrefixOf []
  | c :: cs => t.isPrefixOf (c :: cs) || includesChars t cs

/-- The test `s.includes(t)`. -/
def includes (s t : String) : Bool :=
  includesChars t.data s.data

/-- First-occurrence replacement on character lists (`String.prototype.replace`
with a string pattern and a replacement without `$`). -/
def replaceChars (pat rep : List Char) : List Char → List Char
  | [] => if pat.isEmpty then rep else []
  | c :: cs =>
    if pat.isPrefixOf (c :: cs) then rep ++ (c :: cs).drop pat.length
    else c :: replaceChars pat rep cs

/-- The call `s.replace(pat, rep)` for a string pattern: only the first
occurrence is replaced. -/
def replace (s pat rep : String) : String :=
  ⟨replaceChars pat.data rep.data s.data⟩

/-- The expression `a || b` where `a` is a string or `undefined`: the empty
string and `undefined` are falsy. -/
def orString (a : Option String) (b : String) : String :=
  match a with
  | some s => if s = "" then b else s
  | none => b

/-- Canonicalize of an ignore-case, non-unicode regular expression: the
character is upper-cased, and a character outside ASCII is never mapped into
ASCII. The patterns used here are ASCII, so only the ASCII part is relevant
and characters outside ASCII are left as they are. -/
def canonicalize (c : Char) : Char :=
  c.toUpper

/-- A literal pattern matches at the start of the text, ignoring case. -/
def matchHereI : List Char → List Char → Bool
  | [], _ => true
  | _ :: _, [] => false
  | p :: ps, c :: cs => (canonicalize p == canonicalize c) && matchHereI ps cs

/-- A literal pattern matches somewhere in the text, ignoring case. -/
def searchI (pat : List Char) : List Char → Bool
  | [] => matchHereI pat []
  | c :: cs => matchHereI pat (c :: cs) || searchI pat cs

/-- The test `/Stereo Mix/i.test(label)`. -/
def stereoMixTest (label : String) : Bool :=
  searchI "Stereo Mix".data label.data

/-! ## Data -/

/-- A device as reported by `navigator.mediaDevices.enumerateDevices()`. -/
structure MediaDeviceInfo where
  deviceId : String
  kind : String
  label : String
deriving DecidableEq

/-- An entry of the `devices` state: `{ id, label }`. -/
structure InputDevice where
  id : String
  label : String
deriving DecidableEq

/-- A `Blob`: its bytes and its type; `size` is the number of bytes. -/
structure Blob where
  bytes : List Nat
  type : String
deriving DecidableEq

/-- The property `blob.size`. -/
def Blob.size (b : Blob) : Nat :=
  b.bytes.length

/-- The constructor `new Blob(parts, { type })`: the parts are concatenated in order. -/
def Blob.ofParts (parts : List Blob) (type : String) : Blob :=
  ⟨(parts.map Blob.bytes).foldr (fun x acc => x ++ acc) [], type⟩

/-- The object stored in the `result` state: the body of the response, or
`{ error }`. A field that is absent (`undefined`) is `none`. -/
structure ResultData where
  prediction : Option String
  confidence : Option String
  filename : Option String
  message : Option String
  error : Option String
deriving DecidableEq

/-- The object `{ error: "Upload failed" }`. -/
def uploadFailedResult : ResultData :=
  ⟨none, none, none, none, some "Upload failed"⟩

/-- An exception raised while evaluating JavaScript. -/
inductive JSError where
  | typeError (msg : String)
deriving DecidableEq

/-! ## MIME helpers of `LiveRecorder` -/

/-- The array `types` of `getSupportedMimeType`. -/
def types : List String :=
  ["audio/webm;codecs=opus", "audio/webm", "audio/ogg;codecs=opus", "audio/ogg", "audio/wav"]

/-- The helper `getSupportedMimeType`; `isTypeSupported` is `MediaRecorder.isTypeSupported`. -/
def getSupportedMimeType (isTypeSupported : String → Bool) : String :=
  orString (types.find? (fun t => isTypeSupported t)) ""

/-- The helper `getExtension`. -/
def getExtension (mimeType : String) : String :=
  if includes mimeType "webm" then "webm"
  else if includes mimeType "ogg" then "ogg"
  else if includes mimeType "wav" then "wav"
  else "webm"

/-- The file name given to the form data by `sendRecording`. -/
def recordedName (mimeType : String) : String :=
  "recorded." ++ getExtension mimeType

/-! ## `LiveRecorder` (components/AudioRecorder.jsx) -/

/-- The `MediaRecorder` built by `startRecording`, with what its two handlers
close over: the stream it records and the `mimeType` chosen at start. -/
structure Recorder where
  stream : Nat
  mimeType : String
deriving DecidableEq

/-- The state of a mounted `LiveRecorder`: its six `useState` cells, its three
refs, and the effects it has had on its environment. A stream is named by a
number. -/
structure LiveState where
  devices : List InputDevice
  deviceId : String
  recording : Bool
  audioURL : String
  result : Option ResultData
  isProcessing : Bool
  mediaRecorderRef : Option Recorder
  chunksRef : List Blob
  streamRef : Option Nat
  /-- Streams obtained from `getUserMedia` whose tracks have not been stopped. -/
  openStreams : List Nat
  /-- Messages passed to `alert`, oldest first. -/
  alerts : List String
  /-- The `file` fields of the POSTs issued: blob and file name, oldest first. -/
  posts : List (Blob × String)
  /-- Exceptions that left an event handler uncaught. -/
  uncaught : List JSError
deriving DecidableEq

/-- The state at mount: the initial values of the `useState` and `useRef` calls. -/
def LiveState.init : LiveState :=
  { devices := [], deviceId := "", recording := false, audioURL := "", result := none,
    isProcessing := false, mediaRecorderRef := none, chunksRef := [], streamRef := none,
    openStreams := [], alerts := [], posts := [], uncaught := [] }

/-- The `inputs` of the mount effect: the audio inputs of the platform's list,
each as `{ id, label }` with `label || "Unknown input"`. -/
def audioInputs (list : List MediaDeviceInfo) : List InputDevice :=
  (list.filter (fun d => d.kind == "audioinput")).map
    (fun d => ⟨d.deviceId, orString (some d.label) "Unknown input"⟩)

/-- The callback of `enumerateDevices().then(...)` in the mount effect. -/
def onDevicesEnumerated (list : List MediaDeviceInfo) (s : LiveState) : LiveState :=
  let inputs := audioInputs list
  let s1 := { s with devices := inputs }
  match inputs.find? (fun d => stereoMixTest d.label) with
  | some stereo => { s1 with deviceId := stereo.id }
  | none => s1

/-- The state after the mount-time enumeration has resolved with `list`. -/
def mountEnumeration (list : List MediaDeviceInfo) : LiveState :=
  onDevicesEnumerated list LiveState.init

/-- The handler `startRecording`, run to its end. `getUserMedia` is the
outcome of `navigator.mediaDevices.getUserMedia(constraints)`: a new stream,
or `none` when the promise rejects and the `catch` branch alerts. The
constraints only decide that outcome. The handler reads `deviceId` for them
and does not read `recording`. Everything the handler does to the component
comes after its `await`, so `s` is the state at the time the promise settles. -/
def startRecording (isTypeSupported : String → Bool) (getUserMedia : Option Nat)
    (s : LiveState) : LiveState :=
  match getUserMedia with
  | none =>
    { s with alerts := s.alerts ++
        ["Cannot access selected input. Check permissions & device settings."] }
  | some stream =>
    let mimeType := getSupportedMimeType isTypeSupported
    { s with
      streamRef := some stream
      openStreams := s.openStreams ++ [stream]
      mediaRecorderRef := some ⟨stream, mimeType⟩
      chunksRef := []
      audioURL := ""
      result := none
      recording := true }


/-- The handler `ondataavailable` installed by `startRecording`, called with `e.data`. -/
def ondataavailable (data : Blob) (s : LiveState) : LiveState :=
  if data.size ≠ 0 then { s with chunksRef := s.chunksRef ++ [data] } else s

/-- The chunks `cs` are delivered one after the other. -/
def deliver (cs : List Blob) (s : LiveState) : LiveState :=
  cs.foldl (fun st c => ondataavailable c st) s

/-- The handler `stopRecording`. -/
def stopRecording (s : LiveState) : LiveState :=
  if s.mediaRecorderRef.isSome && s.recording then
    { s with recording := false, isProcessing := true }
  else s

/-- The handler `sendRecording` up to its `await`: the POST is issued. -/
def sendRecordingBegin (blob : Blob) (mimeType : String) (s : LiveState) : LiveState :=
  { s with posts := s.posts ++ [(blob, recordedName mimeType)] }

/-- The handler `sendRecording` after its `await`: `response` is `res.data`
when the POST succeeds and `none` when it is rejected. -/
def sendRecordingSettle (response : Option ResultData) (s : LiveState) : LiveState :=
  match response with
  | some data => { s with result := some data, isProcessing := false }
  | none => { s with alerts := s.alerts ++ ["Upload failed"], isProcessing := false }

/-- The blob that `onstop` builds from the chunk buffer. -/
def finalBlob (rec : Recorder) (s : LiveState) : Blob :=
  Blob.ofParts s.chunksRef rec.mimeType

/-- The handler `onstop` installed by `startRecording` on the recorder `rec`;
`url` is what `URL.createObjectURL(blob)` returns. -/
def onstop (rec : Recorder) (url : String) (s : LiveState) : LiveState :=
  let blob := finalBlob rec s
  let s1 := sendRecordingBegin blob rec.mimeType { s with audioURL := url }
  match s1.streamRef with
  | some stream => { s1 with openStreams := s1.openStreams.filter (fun x => x != stream), streamRef := none }
  | none => { s1 with uncaught := s1.uncaught ++
      [JSError.typeError "Cannot read properties of null (reading 'getTracks')"] }

/-- A mounted `LiveRecorder` together with the calls of `startRecording`
that are suspended at `await getUserMedia(...)`. -/
structure LivePage where
  state : LiveState
  /-- The number of suspended calls of `startRecording`. -/
  pendingStarts : Nat
deriving DecidableEq

/-- The page at mount. -/
def LivePage.init : LivePage :=
  ⟨LiveState.init, 0⟩

/-- A click on the start button, which carries `disabled={recording}`. The
flag is read at the time of the click: a disabled button does not call its
`onClick`, an enabled one calls `startRecording`, which runs up to its
`await` and changes nothing of the component before it. -/
def clickStart (u : LivePage) : LivePage :=
  if u.state.recording then u else { u with pendingStarts := u.pendingStarts + 1 }

/-- The promise of the oldest suspended `startRecording` settles with
`getUserMedia` and the handler runs to its end on the state of that time. -/
def resumeStart (isTypeSupported : String → Bool) (getUserMedia : Option Nat)
    (u : LivePage) : LivePage :=
  match u.pendingStarts with
  | 0 => u
  | n + 1 => ⟨startRecording isTypeSupported getUserMedia u.state, n⟩

/-- An event handler of the component runs on the page. -/
def LivePage.run (f : LiveState → LiveState) (u : LivePage) : LivePage :=
  { u with state := f u.state }

/-- The result panel of `LiveRecorder`: the class of its only styled element,
the enclosing `div`, and the two texts it shows. It has no confidence bar. -/
structure LivePanel where
  className : String
  prediction : Option String
  confidence : Option String
deriving DecidableEq

/-- The result panel of `LiveRecorder`, `{result && (...)}`: the prediction
and the confidence as plain text in a `div` of a fixed class. -/
def renderLiveResult (result : Option ResultData) : Option LivePanel :=
  match result with
  | none => none
  | some r => some ⟨"bg-gray-700 p-4 rounded-lg text-gray-100", r.prediction, r.confidence⟩

/-! ## `FileUploader` (components/FileUploader.jsx) -/

/-- A `File` as far as the component reads it. -/
structure JSFile where
  name : String
  type : String
deriving DecidableEq

/-- The state of a mounted `FileUploader`: its three `useState` cells and the
effects it has had on its environment. -/
structure FileState where
  file : Option JSFile
  result : Option ResultData
  isDragging : Bool
  /-- Messages passed to `alert`, oldest first. -/
  alerts : List String
  /-- The files POSTed, oldest first. -/
  posts : List JSFile
deriving DecidableEq

/-- The handler `handleFileChange`; `files` is `event.target.files`. -/
def handleFileChange (files : List JSFile) (s : FileState) : FileState :=
  match files.head? with
  | some selected => { s with file := some selected }
  | none => s

/-- The handler `handleDragOver`. -/
def handleDragOver (s : FileState) : FileState :=
  { s with isDragging := true }

/-- The handler `handleDragLeave`. -/
def handleDragLeave (s : FileState) : FileState :=
  { s with isDragging := false }

/-- The handler `handleDrop`; `files` is `e.dataTransfer.files`. -/
def handleDrop (files : List JSFile) (s : FileState) : FileState :=
  let s1 := { s with isDragging := false }
  match files.head? with
  | some selected =>
    if startsWith selected.type "audio/" then { s1 with file := some selected } else s1
  | none => s1

/-- The handler `uploadFile` up to its `await`: without a file it alerts and
returns, with one it issues the POST. -/
def uploadFileBegin (s : FileState) : FileState :=
  match s.file with
  | none => { s with alerts := s.alerts ++ ["Please select a file first!"] }
  | some f => { s with posts := s.posts ++ [f] }

/-- The handler `uploadFile` after its `await`: `response` is `res.data` when
the POST succeeds and `none` when it is rejected. -/
def uploadFileSettle (response : Option ResultData) (s : FileState) : FileState :=
  match response with
  | some data => { s with result := some data }
  | none => { s with result := some uploadFailedResult }

/-- The handler `uploadFile`, run to its end. -/
def uploadFile (response : Option ResultData) (s : FileState) : FileState :=
  match s.file with
  | none => uploadFileBegin s
  | some _ => uploadFileSettle response (uploadFileBegin s)

/-- The class chosen for the prediction badge by the chain of `===` tests. -/
def predictionClass (prediction : Option String) : String :=
  if prediction = some "Wind" then "bg-cyan-600 text-cyan-100"
  else if prediction = some "Gunshot" then "bg-red-600 text-red-100"
  else if prediction = some "Chainsaw" then "bg-orange-600 text-orange-100"
  else if prediction = some "Animal" then "bg-emerald-600 text-emerald-100"
  else "bg-gray-600 text-gray-100"

/-- What the result panel of `FileUploader` shows. A text that is `undefined`
is `none`. -/
structure FilePanel where
  filename : Option String
  message : Option String
  badgeClass : String
  prediction : Option String
  barWidth : String
  confidence : Option String
deriving DecidableEq

/-- The result panel of `FileUploader`, `{result && (...)}`. The expression
`result.confidence.replace('%','') + '%'` reads a property of
`result.confidence`, which raises a `TypeError` when that is `undefined`. -/
def renderResult (result : Option ResultData) : Except JSError (Option FilePanel) :=
  match result with
  | none => .ok none
  | some r =>
    match r.confidence with
    | none => .error (.typeError "Cannot read properties of undefined (reading 'replace')")
    | some c =>
      .ok (some
        { filename := r.filename
          message := r.message
          badgeClass := predictionClass r.prediction
          prediction := r.prediction
          barWidth := replace c "%" "" ++ "%"
          confidence := r.confidence })

/-! ## Concrete states and values used in the examples -/

/-- A chunk of three bytes. -/
def chunkA : Blob :=
  ⟨[82, 73, 70], "audio/webm"⟩

/-- A chunk without bytes, as a recorder delivers when it has nothing buffered. -/
def chunkEmpty : Blob :=
  ⟨[], "audio/webm"⟩

/-- A platform on which every MIME type is supported. -/
def supportsAll : String → Bool :=
  fun _ => true

/-- Two clicks on the start button right after mount, before either
`getUserMedia` promise has settled. -/
def twoClicks : LivePage :=
  clickStart (clickStart LivePage.init)

/-- After `twoClicks`, the first promise resolves with stream 1 and the
recorder on it delivers `chunkA`. -/
def firstStarted : LivePage :=
  LivePage.run (deliver [chunkA]) (resumeStart supportsAll (some 1) twoClicks)

/-- After `firstStarted`, the second promise resolves with stream 2. -/
def secondStarted : LivePage :=
  resumeStart supportsAll (some 2) firstStarted

/-- After `secondStarted`, the stop button is clicked and the stop event of
the recorder on stream 2 is handled. -/
def stoppedAfterTwoStarts : LivePage :=
  LivePage.run (onstop ⟨2, getSupportedMimeType supportsAll⟩ "blob:preview")
    (LivePage.run stopRecording secondStarted)

/-- The response of scenario B. -/
def gunshotResult : ResultData :=
  ⟨some "Gunshot", some "97%", some "recorded.webm", some "ok", none⟩

/-- A response with another label. -/
def windResult : ResultData :=
  ⟨some "Wind", some "97%", some "recorded.webm", some "ok", none⟩

/-- A picked file. -/
def clipFile : JSFile :=
  ⟨"clip.wav", "audio/wav"⟩

/-- A `FileUploader` that holds a file and shows the result of an earlier upload. -/
def shownState : FileState :=
  { file := some clipFile, result := some gunshotResult, isDragging := false,
    alerts := [], posts := [clipFile] }

/-! ## Lemmas on the string operations -/

theorem orString_empty (a : Option String) : orString a "" = a.getD "" := by
  cases a with
  | none => rfl
  | some s =>
    by_cases h : s = ""
    · simp [orString, h]
    · simp [orString, h]

theorem find?_first {α : Type} (p : α → Bool) (pre : List α) (t : α) (post : List α)
    (ht : p t = true) (hpre : ∀ u ∈ pre, p u = false) :
    (pre ++ t :: post).find? p = some t := by
  induction pre with
  | nil => simp [ht]
  | cons x xs ih =>
    have hx : p x = false := hpre x (List.mem_cons_self x xs)
    have hxs : ∀ u ∈ xs, p u = false := fun u hu => hpre u (List.mem_cons_of_mem x hu)
    simp [List.find?_cons, hx, ih hxs]

theorem includesChars_iff (t s : List Char) :
    includesChars t s = true ↔ ∃ a b, s = a ++ t ++ b := by
  induction s with
  | nil =>
    simp only [includesChars, List.isPrefixOf_iff_prefix]
    constructor
    · intro h
      exact ⟨[], [], by simp [List.prefix_nil.mp h]⟩
    · rintro ⟨a, b, h⟩
      have h1 : a ++ t ++ b = [] := h.symm
      simp only [List.append_eq_nil] at h1
      rw [h1.1.2]
  | cons c cs ih =>
    simp only [includesChars, Bool.or_eq_true, List.isPrefixOf_iff_prefix, ih]
    constructor
    · rintro (⟨b, hb⟩ | ⟨a, b, h⟩)
      · exact ⟨[], b, by simp [hb]⟩
      · exact ⟨c :: a, b, by simp [h]⟩
    · rintro ⟨a, b, h⟩
      cases a with
      | nil => exact Or.inl ⟨b, by simpa using h.symm⟩
      | cons x xs =>
        simp only [List.cons_append, List.cons.injEq] at h
        exact Or.inr ⟨xs, b, by simpa using h.2⟩

theorem includes_iff (s t : String) :
    includes s t = true ↔ ∃ a b : String, s = a ++ t ++ b := by
  unfold includes
  rw [includesChars_iff]
  constructor
  · rintro ⟨a, b, h⟩
    exact ⟨⟨a⟩, ⟨b⟩, String.ext (by simpa using h)⟩
  · rintro ⟨a, b, h⟩
    exact ⟨a.data, b.data, by rw [h]; simp⟩

theorem mem_types_ne_empty (t : String) (h : t ∈ types) : t ≠ "" := by
  simp only [types, List.mem_cons, List.mem_nil_iff, or_false] at h
  rcases h with h | h | h | h | h <;> subst h <;> decide

/-! ## The codec policy -/

/-- C1: for every support predicate, `getSupportedMimeType` returns the first
entry of the preference list that the predicate supports (every entry before
it being unsupported); it returns the empty string exactly when none of the
five entries is supported; and a non-empty answer is a supported entry of the
list. -/
theorem getSupportedMimeType_first_supported (isTypeSupported : String → Bool) :
    types = ["audio/webm;codecs=opus", "audio/webm", "audio/ogg;codecs=opus", "audio/ogg",
      "audio/wav"] ∧
    (∀ pre t post, types = pre ++ t :: post → isTypeSupported t = true →
      (∀ u ∈ pre, isTypeSupported u = false) →
      getSupportedMimeType isTypeSupported = t) ∧
    (getSupportedMimeType isTypeSupported = "" ↔ ∀ t ∈ types, isTypeSupported t = false) ∧
    (getSupportedMimeType isTypeSupported ≠ "" →
      getSupportedMimeType isTypeSupported ∈ types ∧
      isTypeSupported (getSupportedMimeType isTypeSupported) = true) := by
  refine ⟨rfl, ?_, ?_, ?_⟩
  · intro pre t post hsplit ht hpre
    unfold getSupportedMimeType
    rw [orString_empty, hsplit, find?_first _ pre t post ht hpre]
    rfl
  · unfold getSupportedMimeType
    rw [orString_empty]
    cases hf : types.find? (fun t => isTypeSupported t) with
    | none =>
      simp only [Option.getD_none, true_iff]
      intro t ht
      have := List.find?_eq_none.mp hf t ht
      simpa using this
    | some t =>
      simp only [Option.getD_some]
      constructor
      · intro h
        exact absurd h (mem_types_ne_empty t (List.mem_of_find?_eq_some hf))
      · intro h
        have h1 := List.find?_some hf
        have h2 := h t (List.mem_of_find?_eq_some hf)
        simp [h2] at h1
  · unfold getSupportedMimeType
    rw [orString_empty]
    cases hf : types.find? (fun t => isTypeSupported t) with
    | none => intro h; exact absurd rfl h
    | some t =>
      intro _
      exact ⟨List.mem_of_find?_eq_some hf, List.find?_some hf⟩

theorem getSupportedMimeType_cases (isTypeSupported : String → Bool) :
    getSupportedMimeType isTypeSupported = "" ∨
    getSupportedMimeType isTypeSupported ∈ types := by
  unfold getSupportedMimeType
  rw [orString_empty]
  cases hf : types.find? (fun t => isTypeSupported t) with
  | none => exact Or.inl rfl
  | some t => exact Or.inr (List.mem_of_find?_eq_some hf)

/-- C2: `getExtension` answers `webm` for a type that contains `webm`,
otherwise `ogg` for one that contains `ogg`, otherwise `wav` for one that
contains `wav`, otherwise `webm`; and for every answer of
`getSupportedMimeType` the upload is named `recorded.webm` for the two webm
entries and the empty fallback, `recorded.ogg` for the two ogg entries and
`recorded.wav` for `audio/wav`, these six being the only answers. -/
theorem getExtension_by_container :
    (∀ m : String, (∃ a b : String, m = a ++ "webm" ++ b) → getExtension m = "webm") ∧
    (∀ m : String, (¬ ∃ a b : String, m = a ++ "webm" ++ b) →
      (∃ a b : String, m = a ++ "ogg" ++ b) → getExtension m = "ogg") ∧
    (∀ m : String, (¬ ∃ a b : String, m = a ++ "webm" ++ b) →
      (¬ ∃ a b : String, m = a ++ "ogg" ++ b) →
      (∃ a b : String, m = a ++ "wav" ++ b) → getExtension m = "wav") ∧
    (∀ m : String, (¬ ∃ a b : String, m = a ++ "webm" ++ b) →
      (¬ ∃ a b : String, m = a ++ "ogg" ++ b) →
      (¬ ∃ a b : String, m = a ++ "wav" ++ b) → getExtension m = "webm") ∧
    (∀ isTypeSupported : String → Bool,
      (getSupportedMimeType isTypeSupported = "audio/webm;codecs=opus" ∨
        getSupportedMimeType isTypeSupported = "audio/webm" ∨
        getSupportedMimeType isTypeSupported = "" →
        recordedName (getSupportedMimeType isTypeSupported) = "recorded.webm") ∧
      (getSupportedMimeType isTypeSupported = "audio/ogg;codecs=opus" ∨
        getSupportedMimeType isTypeSupported = "audio/ogg" →
        recordedName (getSupportedMimeType isTypeSupported) = "recorded.ogg") ∧
      (getSupportedMimeType isTypeSupported = "audio/wav" →
        recordedName (getSupportedMimeType isTypeSupported) = "recorded.wav") ∧
      (getSupportedMimeType isTypeSupported = "audio/webm;codecs=opus" ∨
        getSupportedMimeType isTypeSupported = "audio/webm" ∨
        getSupportedMimeType isTypeSupported = "audio/ogg;codecs=opus" ∨
        getSupportedMimeType isTypeSupported = "audio/ogg" ∨
        getSupportedMimeType isTypeSupported = "audio/wav" ∨
        getSupportedMimeType isTypeSupported = "")) := by
  refine ⟨?_, ?_, ?_, ?_, ?_⟩
  · intro m h
    have := (includes_iff m "webm").mpr h
    simp [getExtension, this]
  · intro m h1 h2
    have e1 : includes m "webm" = false := by
      rw [← Bool.not_eq_true]; exact fun h => h1 ((includes_iff m "webm").mp h)
    have e2 := (includes_iff m "ogg").mpr h2
    simp [getExtension, e1, e2]
  · intro m h1 h2 h3
    have e1 : includes m "webm" = false := by
      rw [← Bool.not_eq_true]; exact fun h => h1 ((includes_iff m "webm").mp h)
    have e2 : includes m "ogg" = false := by
      rw [← Bool.not_eq_true]; exact fun h => h2 ((includes_iff m "ogg").mp h)
    have e3 := (includes_iff m "wav").mpr h3
    simp [getExtension, e1, e2, e3]
  · intro m h1 h2 h3
    have e1 : includes m "webm" = false := by
      rw [← Bool.not_eq_true]; exact fun h => h1 ((includes_iff m "webm").mp h)
    have e2 : includes m "ogg" = false := by
      rw [← Bool.not_eq_true]; exact fun h => h2 ((includes_iff m "ogg").mp h)
    have e3 : includes m "wav" = false := by
      rw [← Bool.not_eq_true]; exact fun h => h3 ((includes_iff m "wav").mp h)
    simp [getExtension, e1, e2, e3]
  · intro sup
    refine ⟨?_, ?_, ?_, ?_⟩
    · rintro (h | h | h) <;> rw [h] <;> decide
    · rintro (h | h) <;> rw [h] <;> decide
    · intro h; rw [h]; decide
    · rcases getSupportedMimeType_cases sup with h | h
      · simp [h]
      · simp only [types, List.mem_cons, List.mem_nil_iff, or_false] at h
        rcases h with h | h | h | h | h <;> simp [h]

theorem matchHereI_iff (pat text : List Char) :
    matchHereI pat text = true ↔
      ∃ m b, text = m ++ b ∧ m.map canonicalize = pat.map canonicalize := by
  induction pat generalizing text with
  | nil =>
    simp only [matchHereI, List.map_nil, List.map_eq_nil_iff, true_iff]
    exact ⟨[], text, rfl, rfl⟩
  | cons p ps ih =>
    cases text with
    | nil =>
      simp only [matchHereI, Bool.false_eq_true, false_iff]
      rintro ⟨m, b, h, hm⟩
      have h1 : m ++ b = [] := h.symm
      simp only [List.append_eq_nil] at h1
      rw [h1.1] at hm
      simp at hm
    | cons c cs =>
      simp only [matchHereI, Bool.and_eq_true, beq_iff_eq, ih]
      constructor
      · rintro ⟨hc, m, b, h, hm⟩
        exact ⟨c :: m, b, by simp [h], by simp [hc, hm]⟩
      · rintro ⟨m, b, h, hm⟩
        cases m with
        | nil => simp at hm
        | cons x xs =>
          simp only [List.cons_append, List.cons.injEq] at h
          simp only [List.map_cons, List.cons.injEq] at hm
          exact ⟨by rw [h.1]; exact hm.1.symm, xs, b, h.2, hm.2⟩

theorem searchI_iff (pat text : List Char) :
    searchI pat text = true ↔
      ∃ a m b, text = a ++ m ++ b ∧ m.map canonicalize = pat.map canonicalize := by
  induction text with
  | nil =>
    simp only [searchI, matchHereI_iff]
    constructor
    · rintro ⟨m, b, h, hm⟩
      exact ⟨[], m, b, by simpa using h, hm⟩
    · rintro ⟨a, m, b, h, hm⟩
      have h1 : a ++ m ++ b = [] := h.symm
      simp only [List.append_eq_nil] at h1
      exact ⟨m, b, by simp [h1.1.2, h1.2], hm⟩
  | cons c cs ih =>
    simp only [searchI, Bool.or_eq_true, matchHereI_iff, ih]
    constructor
    · rintro (⟨m, b, h, hm⟩ | ⟨a, m, b, h, hm⟩)
      · exact ⟨[], m, b, by simpa using h, hm⟩
      · exact ⟨c :: a, m, b, by simp [h], hm⟩
    · rintro ⟨a, m, b, h, hm⟩
      cases a with
      | nil => exact Or.inl ⟨m, b, by simpa using h, hm⟩
      | cons x xs =>
        simp only [List.cons_append, List.cons.injEq] at h
        exact Or.inr ⟨xs, m, b, h.2, hm⟩

theorem stereoMixTest_iff (label : String) :
    stereoMixTest label = true ↔
      ∃ a m b : String, label = a ++ m ++ b ∧
        m.data.map Char.toUpper = "STEREO MIX".data := by
  unfold stereoMixTest
  rw [searchI_iff]
  have hp : List.map canonicalize "Stereo Mix".data = "STEREO MIX".data := by decide
  rw [hp]
  constructor
  · rintro ⟨a, m, b, h, hm⟩
    exact ⟨⟨a⟩, ⟨m⟩, ⟨b⟩, String.ext (by simpa using h), hm⟩
  · rintro ⟨a, m, b, h, hm⟩
    exact ⟨a.data, m.data, b.data, by rw [h]; simp, hm⟩

theorem stereoMixTest_orString (label : String) :
    stereoMixTest (orString (some label) "Unknown input") = stereoMixTest label := by
  by_cases h : label = ""
  · subst h; decide
  · simp [orString, h]

/-- The device that the mount effect looks for, in terms of the platform's list. -/
theorem mountEnumeration_deviceId (list : List MediaDeviceInfo) :
    (mountEnumeration list).deviceId =
      ((list.find? (fun d => d.kind == "audioinput" && stereoMixTest d.label)).map
        (fun d => d.deviceId)).getD "" := by
  unfold mountEnumeration onDevicesEnumerated audioInputs
  simp only [List.find?_map, List.find?_filter]
  have hfun : (fun a : MediaDeviceInfo => decide ((a.kind == "audioinput") = true ∧
      ((fun d : InputDevice => stereoMixTest d.label) ∘
        fun d : MediaDeviceInfo => (⟨d.deviceId, orString (some d.label) "Unknown input"⟩ : InputDevice)) a = true)) =
      (fun d => d.kind == "audioinput" && stereoMixTest d.label) := by
    funext a
    simp [stereoMixTest_orString]
    rfl
  rw [hfun]
  cases list.find? (fun d => d.kind == "audioinput" && stereoMixTest d.label) with
  | none => rfl
  | some d => rfl

/-- C3: after the mount-time enumeration the selected `deviceId` is the id
of an audio input of the list whose label matches `Stereo Mix`, ignoring case
and as a substring, if and only if the list has such an audio input; the
first one in list order is selected, and with none the selection stays the
empty string. A label matches exactly when it has a substring whose upper
case is `STEREO MIX`. The list of scenario A selects `d1`. -/
theorem mountEnumeration_selects_stereo_mix (list : List MediaDeviceInfo) :
    ((∃ d ∈ list, d.kind = "audioinput" ∧ stereoMixTest d.label = true ∧
        (mountEnumeration list).deviceId = d.deviceId) ↔
      (∃ d ∈ list, d.kind = "audioinput" ∧ stereoMixTest d.label = true)) ∧
    (∀ pre d post, list = pre ++ d :: post →
      d.kind = "audioinput" → stereoMixTest d.label = true →
      (∀ x ∈ pre, ¬ (x.kind = "audioinput" ∧ stereoMixTest x.label = true)) →
      (mountEnumeration list).deviceId = d.deviceId) ∧
    ((∀ d ∈ list, ¬ (d.kind = "audioinput" ∧ stereoMixTest d.label = true)) →
      (mountEnumeration list).deviceId = "") ∧
    (∀ label : String, stereoMixTest label = true ↔
      ∃ a m b : String, label = a ++ m ++ b ∧
        m.data.map Char.toUpper = "STEREO MIX".data) ∧
    (mountEnumeration
      [⟨"d1", "audioinput", "Stereo Mix"⟩, ⟨"d2", "audioinput", "Headset"⟩]).deviceId = "d1" := by
  refine ⟨⟨?_, ?_⟩, ?_, ?_, stereoMixTest_iff, by decide⟩
  · rintro ⟨d, hd, hk, hl, _⟩
    exact ⟨d, hd, hk, hl⟩
  · rintro ⟨d, hd, hk, hl⟩
    rw [mountEnumeration_deviceId]
    cases hf : list.find? (fun d => d.kind == "audioinput" && stereoMixTest d.label) with
    | none =>
      have := List.find?_eq_none.mp hf d hd
      simp [hk, hl] at this
    | some e =>
      have he := List.find?_some hf
      simp only [Bool.and_eq_true, beq_iff_eq] at he
      exact ⟨e, List.mem_of_find?_eq_some hf, he.1, he.2, rfl⟩
  · intro pre d post hsplit hk hl hpre
    rw [mountEnumeration_deviceId, hsplit, find?_first _ pre d post]
    · rfl
    · simp [hk, hl]
    · intro u hu
      have := hpre u hu
      by_cases h1 : u.kind = "audioinput"
      · have h2 : stereoMixTest u.label = false := by
          rw [← Bool.not_eq_true]; exact fun h => this ⟨h1, h⟩
        simp [h2]
      · simp [h1]
  · intro hnone
    rw [mountEnumeration_deviceId]
    have : list.find? (fun d => d.kind == "audioinput" && stereoMixTest d.label) = none := by
      rw [List.find?_eq_none]
      intro x hx
      simpa using hnone x hx
    rw [this]
    rfl

/-! ## File intake -/

theorem startsWith_iff (s t : String) :
    startsWith s t = true ↔ ∃ rest : String, s = t ++ rest := by
  unfold startsWith
  rw [List.isPrefixOf_iff_prefix]
  constructor
  · rintro ⟨r, hr⟩
    exact ⟨⟨r⟩, String.ext (by simpa using hr.symm)⟩
  · rintro ⟨r, hr⟩
    exact ⟨r.data, by rw [hr]; simp⟩

/-- C4: for every drop and every prior state, `handleDrop` leaves the
selected file as it was when no file was dropped or the type of the first
dropped file does not begin with `audio/`, sets it to that file when the type
begins with `audio/`, and in every case leaves the dragging indicator false;
nothing else of the state changes. -/
theorem handleDrop_accepts_audio_only (files : List JSFile) (s : FileState) :
    (handleDrop files s).isDragging = false ∧
    (files.head? = none → (handleDrop files s).file = s.file) ∧
    (∀ f, files.head? = some f → (¬ ∃ rest : String, f.type = "audio/" ++ rest) →
      (handleDrop files s).file = s.file) ∧
    (∀ f, files.head? = some f → (∃ rest : String, f.type = "audio/" ++ rest) →
      (handleDrop files s).file = some f) ∧
    (handleDrop files s).result = s.result ∧
    (handleDrop files s).alerts = s.alerts ∧
    (handleDrop files s).posts = s.posts := by
  cases hh : files.head? with
  | none => simp [handleDrop, hh]
  | some g =>
    by_cases hg : startsWith g.type "audio/" = true
    · have hex := (startsWith_iff g.type "audio/").mp hg
      refine ⟨?_, ?_, ?_, ?_, ?_, ?_, ?_⟩ <;> simp [handleDrop, hh, hg]
      · intro hnot
        obtain ⟨rest, hrest⟩ := hex
        exact absurd hrest (hnot rest)
    · have hnex : ¬ ∃ rest : String, g.type = "audio/" ++ rest :=
        fun h => hg ((startsWith_iff g.type "audio/").mpr h)
      refine ⟨?_, ?_, ?_, ?_, ?_, ?_, ?_⟩ <;> simp [handleDrop, hh, hg]
      · intro rest hrest
        exact absurd ⟨rest, hrest⟩ hnex

/-! ## The capture controller -/

/-- C5: a second start during a recording is not a no-op. The start button
is disabled by `recording`, which `startRecording` sets only after its
`await`, and the handler itself does not check the flag. Two clicks before the
first stream arrives both pass the button; the second call then runs on a
recording state: it takes stream 2 next to stream 1, installs a second
recorder and replaces the chunk buffer, which held `chunkA`, by an empty one.
At stop only stream 2 is released and stream 1 stays open. A click at a time
when `recording` is true does nothing. -/
theorem startRecording_twice_opens_second_stream :
    twoClicks.state.recording = false ∧
    twoClicks.pendingStarts = 2 ∧
    firstStarted.state.recording = true ∧
    firstStarted.state.openStreams = [1] ∧
    firstStarted.state.mediaRecorderRef = some ⟨1, "audio/webm;codecs=opus"⟩ ∧
    firstStarted.state.chunksRef = [chunkA] ∧
    secondStarted.state.recording = true ∧
    secondStarted.state.openStreams = [1, 2] ∧
    secondStarted.state.streamRef = some 2 ∧
    secondStarted.state.mediaRecorderRef = some ⟨2, "audio/webm;codecs=opus"⟩ ∧
    secondStarted.state.chunksRef = [] ∧
    secondStarted.state ≠ firstStarted.state ∧
    stoppedAfterTwoStarts.state.recording = false ∧
    stoppedAfterTwoStarts.state.streamRef = none ∧
    stoppedAfterTwoStarts.state.openStreams = [1] ∧
    clickStart secondStarted = secondStarted := by
  decide

theorem deliver_chunksRef (cs : List Blob) (s : LiveState) :
    (deliver cs s).chunksRef = s.chunksRef ++ cs.filter (fun c => decide (c.size ≠ 0)) := by
  induction cs generalizing s with
  | nil => simp [deliver]
  | cons c cs ih =>
    have hstep : deliver (c :: cs) s = deliver cs (ondataavailable c s) := rfl
    rw [hstep, ih]
    by_cases hc : c.size = 0
    · simp [ondataavailable, hc]
    · simp [ondataavailable, hc]

/-- The handler `ondataavailable` touches the chunk buffer only. -/
theorem deliver_frame (cs : List Blob) (s : LiveState) :
    deliver cs s = { s with chunksRef := (deliver cs s).chunksRef } := by
  induction cs generalizing s with
  | nil => rfl
  | cons c cs ih =>
    have hstep : deliver (c :: cs) s = deliver cs (ondataavailable c s) := rfl
    rw [hstep, ih]
    by_cases hc : c.size = 0
    · simp [ondataavailable, hc]
    · simp [ondataavailable, hc]

theorem ofParts_bytes_filter (cs : List Blob) (t : String) :
    (Blob.ofParts (cs.filter (fun c => decide (c.size ≠ 0))) t).bytes = (Blob.ofParts cs t).bytes := by
  induction cs with
  | nil => rfl
  | cons c cs ih =>
    simp only [Blob.ofParts] at ih ⊢
    by_cases hc : c.size = 0
    · have hb : c.bytes = [] := List.length_eq_zero.mp hc
      simp only [List.filter_cons, hc, hb, ne_eq, not_true_eq_false, decide_False,
        Bool.false_eq_true, ↓reduceIte, List.map_cons, List.foldr_cons, List.nil_append]
      exact ih
    · simp only [List.filter_cons, hc, ne_eq, not_false_eq_true, decide_True, ↓reduceIte,
        List.map_cons, List.foldr_cons]
      rw [ih]

/-- C6, as the claim states it: a delivered chunk of size zero is not
appended, so the buffer after the deliveries is not always the delivered
sequence. -/
theorem deliver_drops_empty_chunk :
    (deliver [chunkA, chunkEmpty]
      (startRecording supportsAll (some 1) LiveState.init)).chunksRef = [chunkA] ∧
    (deliver [chunkA, chunkEmpty]
      (startRecording supportsAll (some 1) LiveState.init)).chunksRef ≠ [chunkA, chunkEmpty] := by
  decide

theorem stopRecording_chunksRef (s : LiveState) :
    (stopRecording s).chunksRef = s.chunksRef ∧ (stopRecording s).posts = s.posts ∧
    (stopRecording s).result = s.result := by
  unfold stopRecording
  split <;> simp

/-- C6, amended: from any state, after a start that obtained a stream and
the delivery of `cs`, the chunk buffer is the chunks of `cs` of non-zero size
in their order of arrival. With `more` the chunks delivered between the stop
click and the stop event, the blob that `onstop` builds and POSTs is made of
exactly the chunks of non-zero size of `cs ++ more`, in order, with the type
chosen at start, and it has the bytes of all delivered chunks in order. -/
theorem deliver_keeps_nonempty_chunks_in_order (isTypeSupported : String → Bool)
    (stream : Nat) (s : LiveState) (cs more : List Blob) (url : String) :
    (deliver cs (startRecording isTypeSupported (some stream) s)).chunksRef =
      cs.filter (fun c => decide (c.size ≠ 0)) ∧
    (deliver cs (startRecording isTypeSupported (some stream) s)).mediaRecorderRef =
      some ⟨stream, getSupportedMimeType isTypeSupported⟩ ∧
    (onstop ⟨stream, getSupportedMimeType isTypeSupported⟩ url
      (deliver more (stopRecording
        (deliver cs (startRecording isTypeSupported (some stream) s))))).posts =
      s.posts ++ [(Blob.ofParts ((cs ++ more).filter (fun c => decide (c.size ≠ 0)))
        (getSupportedMimeType isTypeSupported),
        recordedName (getSupportedMimeType isTypeSupported))] ∧
    (Blob.ofParts ((cs ++ more).filter (fun c => decide (c.size ≠ 0)))
      (getSupportedMimeType isTypeSupported)).bytes =
      ((cs ++ more).map Blob.bytes).foldr (fun x acc => x ++ acc) [] := by
  have hbuf : (deliver cs (startRecording isTypeSupported (some stream) s)).chunksRef =
      cs.filter (fun c => decide (c.size ≠ 0)) := by
    rw [deliver_chunksRef]
    simp [startRecording]
  have hposts : (deliver cs (startRecording isTypeSupported (some stream) s)).posts =
      s.posts := by
    rw [deliver_frame]
    simp [startRecording]
  refine ⟨hbuf, ?_, ?_, ?_⟩
  · rw [deliver_frame]
    simp [startRecording]
  · have h1 := stopRecording_chunksRef (deliver cs (startRecording isTypeSupported (some stream) s))
    have h2 := deliver_chunksRef more
      (stopRecording (deliver cs (startRecording isTypeSupported (some stream) s)))
    have h3 : (deliver more (stopRecording
        (deliver cs (startRecording isTypeSupported (some stream) s)))).posts = s.posts := by
      rw [deliver_frame]
      simp [h1.2.1, hposts]
    have h4 : ∀ st : LiveState, (onstop ⟨stream, getSupportedMimeType isTypeSupported⟩ url st).posts =
        st.posts ++ [(Blob.ofParts st.chunksRef (getSupportedMimeType isTypeSupported),
          recordedName (getSupportedMimeType isTypeSupported))] := by
      intro st
      unfold onstop
      cases hst : st.streamRef <;> simp [sendRecordingBegin, finalBlob, hst]
    rw [h4, h3, h2, h1.1, hbuf, List.filter_append]
  · rw [ofParts_bytes_filter]
    rfl

/-! ## Submission and the result panels -/

/-- C7: the result panel of `FileUploader` is not total. On the value
`{ error: "Upload failed" }`, which `uploadFile` stores when the POST is
rejected, rendering raises a `TypeError`, as it does on every result object
without a `confidence`; on `null` and on a result with a `confidence` it
returns. -/
theorem renderResult_uploadFailed_raises :
    (∀ (s : FileState) (f : JSFile), s.file = some f →
      renderResult (uploadFile none s).result =
        Except.error (JSError.typeError
          "Cannot read properties of undefined (reading 'replace')")) ∧
    renderResult (some uploadFailedResult) =
      Except.error (JSError.typeError
        "Cannot read properties of undefined (reading 'replace')") ∧
    (∀ r : ResultData, r.confidence = none → ∃ e, renderResult (some r) = Except.error e) ∧
    renderResult none = Except.ok none ∧
    (∀ (r : ResultData) (c : String), r.confidence = some c →
      ∃ panel, renderResult (some r) = Except.ok (some panel)) := by
  refine ⟨?_, rfl, ?_, rfl, ?_⟩
  · intro s f hf
    simp [uploadFile, uploadFileBegin, uploadFileSettle, hf, renderResult, uploadFailedResult]
  · intro r hr
    exact ⟨_, by simp [renderResult, hr]; rfl⟩
  · intro r c hc
    exact ⟨_, by simp [renderResult, hc]; rfl⟩

theorem deliver_result (cs : List Blob) (s : LiveState) :
    (deliver cs s).result = s.result ∧ (deliver cs s).alerts = s.alerts ∧
    (deliver cs s).isProcessing = s.isProcessing := by
  rw [deliver_frame]
  simp

theorem onstop_result (rec : Recorder) (url : String) (s : LiveState) :
    (onstop rec url s).result = s.result ∧ (onstop rec url s).alerts = s.alerts := by
  unfold onstop
  cases hs : s.streamRef <;> simp [sendRecordingBegin, hs]

theorem stopRecording_alerts (s : LiveState) :
    (stopRecording s).alerts = s.alerts := by
  unfold stopRecording
  split <;> simp

/-- The `result` is `null` from a start that obtained a stream up to the
point where the POST of that recording is in flight. -/
theorem result_null_until_settlement (isTypeSupported : String → Bool) (stream : Nat)
    (s : LiveState) (cs more : List Blob) (rec : Recorder) (url : String) :
    (onstop rec url (deliver more (stopRecording
      (deliver cs (startRecording isTypeSupported (some stream) s))))).result = none := by
  rw [(onstop_result _ _ _).1, (deliver_result _ _).1, (stopRecording_chunksRef _).2.2,
    (deliver_result _ _).1]
  rfl

/-- C8: when the POST is rejected, `uploadFile` of a state that holds a file
sets `result` to `{ error: "Upload failed" }`; the continuation of
`sendRecording` alerts `Upload failed`, leaves `result` as it is and sets
`isProcessing` to false, so that after start, chunks, stop and a rejected
POST the `result` is still the `null` set by the start; on success
`isProcessing` is false as well and `result` is the response. -/
theorem rejected_post_settlement :
    (∀ (s : FileState) (f : JSFile), s.file = some f →
      (uploadFile none s).result = some uploadFailedResult ∧
      (uploadFile none s).posts = s.posts ++ [f] ∧
      (uploadFile none s).alerts = s.alerts) ∧
    uploadFailedResult = ⟨none, none, none, none, some "Upload failed"⟩ ∧
    (∀ s : LiveState,
      (sendRecordingSettle none s).alerts = s.alerts ++ ["Upload failed"] ∧
      (sendRecordingSettle none s).result = s.result ∧
      (sendRecordingSettle none s).isProcessing = false) ∧
    (∀ (s : LiveState) (data : ResultData),
      (sendRecordingSettle (some data) s).isProcessing = false ∧
      (sendRecordingSettle (some data) s).result = some data ∧
      (sendRecordingSettle (some data) s).alerts = s.alerts) ∧
    (∀ (isTypeSupported : String → Bool) (stream : Nat) (s : LiveState)
      (cs more : List Blob) (url : String),
      (sendRecordingSettle none (onstop ⟨stream, getSupportedMimeType isTypeSupported⟩ url
        (deliver more (stopRecording
          (deliver cs (startRecording isTypeSupported (some stream) s)))))).result = none ∧
      (sendRecordingSettle none (onstop ⟨stream, getSupportedMimeType isTypeSupported⟩ url
        (deliver more (stopRecording
          (deliver cs (startRecording isTypeSupported (some stream) s)))))).alerts =
        s.alerts ++ ["Upload failed"] ∧
      (sendRecordingSettle none (onstop ⟨stream, getSupportedMimeType isTypeSupported⟩ url
        (deliver more (stopRecording
          (deliver cs (startRecording isTypeSupported (some stream) s)))))).isProcessing =
        false) := by
  refine ⟨?_, rfl, ?_, ?_, ?_⟩
  · intro s f hf
    simp [uploadFile, uploadFileBegin, uploadFileSettle, hf]
  · intro s
    simp [sendRecordingSettle]
  · intro s data
    simp [sendRecordingSettle]
  · intro sup stream s cs more url
    have hr := result_null_until_settlement sup stream s cs more
      ⟨stream, getSupportedMimeType sup⟩ url
    refine ⟨?_, ?_, ?_⟩
    · simp only [sendRecordingSettle]
      exact hr
    · simp only [sendRecordingSettle]
      rw [(onstop_result _ _ _).2, (deliver_result _ _).2.1, stopRecording_alerts,
        (deliver_result _ _).2.1]
      rfl
    · simp [sendRecordingSettle]

theorem replaceChars_percent (n : List Char) (hn : '%' ∉ n) :
    replaceChars ['%'] [] (n ++ ['%']) = n := by
  induction n with
  | nil => rfl
  | cons c cs ih =>
    have hc : ¬ (c = '%') := fun h => hn (by simp [h])
    have hcs : '%' ∉ cs := fun h => hn (List.mem_cons_of_mem c h)
    have hpre : List.isPrefixOf ['%'] (c :: (cs ++ ['%'])) = false := by
      simp [List.isPrefixOf, hc, Ne.symm hc]
    show replaceChars ['%'] [] (c :: (cs ++ ['%'])) = c :: cs
    rw [replaceChars, hpre, ih hcs]
    rfl

theorem replace_percent (n : String) (hn : '%' ∉ n.data) :
    replace (n ++ "%") "%" "" ++ "%" = n ++ "%" := by
  have h : replace (n ++ "%") "%" "" = n := by
    unfold replace
    apply String.ext
    have hd : (n ++ "%").data = n.data ++ ['%'] := by simp
    have hp : "%".data = ['%'] := rfl
    have he : "".data = [] := rfl
    rw [hd, hp, he, replaceChars_percent n.data hn]
  rw [h]

/-- C9, as the claim states it: the result panel of `LiveRecorder` shows
the response of scenario B as plain text in a `div` of a fixed class, the
same class as for the label `Wind`; no style depends on the prediction. -/
theorem renderLiveResult_gunshot_plain :
    renderLiveResult (some gunshotResult) =
      some ⟨"bg-gray-700 p-4 rounded-lg text-gray-100", some "Gunshot", some "97%"⟩ ∧
    (renderLiveResult (some gunshotResult)).map LivePanel.className =
      (renderLiveResult (some windResult)).map LivePanel.className := by
  decide

/-- C9, amended: for every result whose prediction is `Gunshot` and whose
confidence is `n` followed by `%`, with no `%` in `n`, the result panel of
`FileUploader` renders, shows the label `Gunshot` with the red class, which
differs from the classes of `Wind`, `Chainsaw` and `Animal` and from the gray
class that every other label gets, and gives the confidence bar the width `n`
followed by `%`, which is the confidence itself. -/
theorem renderResult_gunshot (r : ResultData) (n : String)
    (hp : r.prediction = some "Gunshot") (hc : r.confidence = some (n ++ "%"))
    (hn : '%' ∉ n.data) :
    (∃ panel, renderResult (some r) = Except.ok (some panel) ∧
      panel.prediction = some "Gunshot" ∧
      panel.badgeClass = "bg-red-600 text-red-100" ∧
      panel.barWidth = n ++ "%" ∧
      some panel.barWidth = r.confidence ∧
      panel.confidence = r.confidence) ∧
    predictionClass (some "Gunshot") = "bg-red-600 text-red-100" ∧
    predictionClass (some "Gunshot") ≠ predictionClass (some "Wind") ∧
    predictionClass (some "Gunshot") ≠ predictionClass (some "Chainsaw") ∧
    predictionClass (some "Gunshot") ≠ predictionClass (some "Animal") ∧
    (∀ p : Option String, p ≠ some "Wind" → p ≠ some "Gunshot" → p ≠ some "Chainsaw" →
      p ≠ some "Animal" →
      predictionClass p = "bg-gray-600 text-gray-100" ∧
      predictionClass (some "Gunshot") ≠ predictionClass p) := by
  refine ⟨?_, by decide, by decide, by decide, by decide, ?_⟩
  · refine ⟨⟨r.filename, r.message, predictionClass r.prediction, r.prediction,
      replace (n ++ "%") "%" "" ++ "%", r.confidence⟩, ?_, hp, ?_, ?_, ?_, rfl⟩
    · simp [renderResult, hc]
    · show predictionClass r.prediction = "bg-red-600 text-red-100"
      rw [hp]; decide
    · exact replace_percent n hn
    · rw [hc]; exact congrArg some (replace_percent n hn)
  · intro p h1 h2 h3 h4
    have hg : predictionClass p = "bg-gray-600 text-gray-100" := by
      simp [predictionClass, h1, h2, h3, h4]
    exact ⟨hg, by rw [hg]; decide⟩

theorem renderResult_gunshot_witness :
    gunshotResult.prediction = some "Gunshot" ∧
    gunshotResult.confidence = some ("97" ++ "%") ∧
    '%' ∉ "97".data ∧
    ∃ panel, renderResult (some gunshotResult) = Except.ok (some panel) ∧
      panel.prediction = some "Gunshot" ∧
      panel.badgeClass = "bg-red-600 text-red-100" ∧
      panel.barWidth = "97" ++ "%" ∧
      some panel.barWidth = gunshotResult.confidence ∧
      panel.confidence = gunshotResult.confidence :=
  ⟨by decide, by decide, by decide,
    (renderResult_gunshot gunshotResult "97" (by decide) (by decide) (by decide)).1⟩

/-- C10, as the claim states it: `uploadFile` does not clear `result`.
With a file selected and the result of an earlier upload stored, the POST is
issued and, until it settles, the earlier result is still stored. -/
theorem uploadFileBegin_keeps_earlier_result :
    shownState.file = some clipFile ∧
    shownState.result = some gunshotResult ∧
    (uploadFileBegin shownState).posts = shownState.posts ++ [clipFile] ∧
    (uploadFileBegin shownState).result = some gunshotResult ∧
    (uploadFileBegin shownState).result ≠ none := by
  decide

/-- C10, amended: in `LiveRecorder`, for every prior state, a start that
obtained a stream sets `result` to `null`, and it is still `null` after the
chunks, after the stop click and once the POST of the recording is in flight.
In `FileUploader`, issuing the POST leaves `result` as it was, and the
settlement replaces it by the response or by `{ error: "Upload failed" }`. -/
theorem result_cleared_at_start_replaced_at_settlement (isTypeSupported : String → Bool)
    (stream : Nat) (s : LiveState) (cs more : List Blob) (url : String) (t : FileState) :
    (startRecording isTypeSupported (some stream) s).result = none ∧
    (deliver cs (startRecording isTypeSupported (some stream) s)).result = none ∧
    (stopRecording (deliver cs (startRecording isTypeSupported (some stream) s))).result =
      none ∧
    (onstop ⟨stream, getSupportedMimeType isTypeSupported⟩ url
      (deliver more (stopRecording
        (deliver cs (startRecording isTypeSupported (some stream) s))))).result = none ∧
    (uploadFileBegin t).result = t.result ∧
    (∀ response : Option ResultData,
      (uploadFileSettle response (uploadFileBegin t)).result =
        some (response.getD uploadFailedResult)) := by
  refine ⟨rfl, ?_, ?_, ?_, ?_, ?_⟩
  · rw [(deliver_result _ _).1]
    rfl
  · rw [(stopRecording_chunksRef _).2.2, (deliver_result _ _).1]
    rfl
  · exact result_null_until_settlement isTypeSupported stream s cs more _ url
  · unfold uploadFileBegin
    cases t.file <;> rfl
  · intro response
    cases response <;> rfl

end WildGuard
